import Mathlib

/-!
Shallow embedding of the ferogram update-dispatch core (Rust), for checking
the natural-language specification against the code.

Modelled source files (src/lib/ferogram/src/):
- di.rs        : Injector (type-keyed FIFO queues of boxed resources), the
                 impl_handler! endpoint-invocation macro.
- flow.rs      : Flow = action (Break/Continue) + injector.
- filters/     : And / Or / Not combinators, Command, DEFAULT_PREFIXES.
- handler.rs   : Handler = update-type guard + filter + endpoint + error handler.
- middleware.rs: MiddlewareStack with before/after hook lists.
- router.rs    : Router::handle_update, first-match dispatch over handlers then
                 recursion into sub-routers.
- dispatcher.rs: Dispatcher::handle_update, per-update injector set-up and the
                 self-update filter.

Rust runtime type identity (std::any::TypeId) is modelled by the type's name
as a string; a boxed Any value is modelled by a Resource carrying its type
name and an abstract payload number.  Asynchronous execution is irrelevant to
the verified properties (each dispatch is sequential from its own point of
view), so async functions become plain functions.  User-supplied code behind
trait objects (bare filter functions, middleware bodies, endpoint bodies,
error-handler bodies) is modelled by its observable behaviour: the Flow or
Result value it returns.  Execution order is made observable through an event
trace (which middleware / filter / endpoint / error handler ran, in order).
Rust panics (unwrap/expect) are modelled as an explicit `panicked` outcome.
-/

namespace Ferogram

/-- Runtime type identity, modelled as the type's name
(mirrors std::any::TypeId; di.rs keys its HashMap by TypeId and Resource
stores the matching type_name). -/
abbrev TypeId := String

/-- di.rs `Resource`: a boxed value tagged with its type name.  The payload is
abstracted to a number so that distinct values of one type can be told apart. -/
structure Resource where
  type_name : TypeId
  value : Nat
deriving Repr, DecidableEq

/-- di.rs `Injector`: resources: HashMap<TypeId, VecDeque<Resource>>,
modelled as an association list from type id to the queue of that type.
Hash iteration order is irrelevant here: every claim only looks at queues
per type, which the association list reproduces exactly. -/
structure Injector where
  resources : List (TypeId × List Resource)
deriving Repr, DecidableEq

/-- Outcome of `Injector::take`: the Rust code can return Some, return None,
or panic (`pop_front().unwrap()` on an occupied entry whose queue is empty). -/
inductive TakeOut where
  | panicked
  | absent
  | found (r : Resource)
deriving Repr, DecidableEq

namespace Injector

def empty : Injector := ⟨[]⟩

/-- The queue stored for a type id, if the map has an entry for it
(an entry may exist with an empty queue). -/
def lookupQ (inj : Injector) (tid : TypeId) : Option (List Resource) :=
  (inj.resources.find? (fun p => p.1 == tid)).map Prod.snd

/-- Replace the queue of an existing entry. -/
def setQ (inj : Injector) (tid : TypeId) (q : List Resource) : Injector :=
  ⟨inj.resources.map (fun p => if p.1 == tid then (tid, q) else p)⟩

/-- di.rs `Injector::insert`: `entry(TypeId).or_default().push_back(value)`. -/
def insert (inj : Injector) (r : Resource) : Injector :=
  match inj.lookupQ r.type_name with
  | some q => inj.setQ r.type_name (q ++ [r])
  | none => ⟨inj.resources ++ [(r.type_name, [r])]⟩

/-- di.rs `Injector::take`:
Occupied entry: `pop_front().unwrap()` — panics when the retained queue is
empty, otherwise pops the front value (the entry stays, possibly empty).
Vacant entry: returns None. -/
def take (inj : Injector) (tid : TypeId) : TakeOut × Injector :=
  match inj.lookupQ tid with
  | some [] => (.panicked, inj)
  | some (r :: q) => (.found r, inj.setQ tid q)
  | none => (.absent, inj)

/-- di.rs `Injector::get`: peek at the front of the queue without removing
(`values.front()` — no panic on an empty retained queue). -/
def get (inj : Injector) (tid : TypeId) : Option Resource :=
  match inj.lookupQ tid with
  | some (r :: _) => some r
  | _ => none

/-- Append a whole queue onto the entry of a type
(`entry(tid).or_default().extend(values)` — creates the entry when vacant,
even for an empty incoming queue). -/
def appendQ (inj : Injector) (tid : TypeId) (q : List Resource) : Injector :=
  match inj.lookupQ tid with
  | some q0 => inj.setQ tid (q0 ++ q)
  | none => ⟨inj.resources ++ [(tid, q)]⟩

/-- di.rs `Injector::extend`: drains the other injector and appends each of
its queues onto the matching queue of `self`. -/
def extend (inj : Injector) (other : Injector) : Injector :=
  other.resources.foldl (fun acc p => acc.appendQ p.1 p.2) inj

end Injector

/-- flow.rs `Action`. -/
inductive Action where
  | Break
  | Continue
deriving Repr, DecidableEq

/-- flow.rs `Flow`: an action plus an injector of values the filter injected.
The Rust Default gives Continue with an empty injector. -/
structure Flow where
  action : Action := .Continue
  injector : Injector := .empty
deriving Repr, DecidableEq

namespace Flow

def is_break (f : Flow) : Bool := f.action == .Break

def is_continue (f : Flow) : Bool := f.action == .Continue

end Flow

/-- flow.rs `break_now()`. -/
def break_now : Flow := { action := .Break }

/-- flow.rs `continue_now()`. -/
def continue_now : Flow := { action := .Continue }

/-- flow.rs `continue_with(value)`. -/
def continue_with (r : Resource) : Flow :=
  { action := .Continue, injector := Injector.empty.insert r }

/-- flow.rs `impl From<bool> for Flow`. -/
def Flow.ofBool (b : Bool) : Flow := if b then continue_now else break_now

/-- grammers `Chat` as far as the dispatcher inspects it: a user (with its
`is_self` flag), or some non-user chat. -/
inductive Chat where
  | user (self_flag : Bool)
  | group
  | channel
deriving Repr, DecidableEq

/-- A grammers `Update`, carrying exactly the data the modelled code reads:
the kind tag, the sender where the kind has one, and the message text for
message updates (used by the Command filter). -/
inductive Update where
  | NewMessage (sender : Option Chat) (text : String)
  | MessageEdited (sender : Option Chat) (text : String)
  | MessageDeleted
  | CallbackQuery (sender : Chat)
  | InlineQuery (sender_self : Bool)
  | InlineSend (sender_self : Bool)
  | Raw
deriving Repr, DecidableEq

/-- handler.rs `UpdateType`. -/
inductive UpdateType where
  | NewMessage
  | MessageEdited
  | MessageDeleted
  | CallbackQuery
  | InlineQuery
  | InlineSend
  | Raw
deriving Repr, DecidableEq

/-- handler.rs `impl PartialEq<Update> for UpdateType`: exact kind-tag match. -/
def UpdateType.matches : UpdateType → Update → Bool
  | .NewMessage, .NewMessage .. => true
  | .MessageEdited, .MessageEdited .. => true
  | .MessageDeleted, .MessageDeleted => true
  | .CallbackQuery, .CallbackQuery .. => true
  | .InlineQuery, .InlineQuery .. => true
  | .InlineSend, .InlineSend .. => true
  | .Raw, .Raw => true
  | _, _ => false

/-- A filter, as a syntax tree of the combinators from filters/ plus primitive
filters.  A primitive filter stands for user code behind the Filter trait: it
is identified by a number (so that evaluation order is observable) and its
check is an arbitrary function from the update to a Flow. -/
inductive FilterExpr where
  | prim (id : Nat) (f : Update → Flow)
  | and (first second : FilterExpr)
  | or (first other : FilterExpr)
  | not (filter : FilterExpr)

/-- Filter evaluation, returning the resulting Flow together with the trace of
primitive-filter ids evaluated, in order.

- filters/and.rs `And::check`: evaluates both filters unconditionally, drains
  the first flow's injector into the second's, then returns the second flow
  when both continued, and a fresh `flow::break_now()` otherwise.
- filters/or.rs `Or::check`: evaluates the first filter; when it continues its
  flow is returned and the other filter is not evaluated; otherwise evaluates
  the other filter, returning its flow on continue and `break_now()` on break.
- filters/not.rs `Not::check`: `(!inner.check(..).is_continue()).into()` — a
  bare bool conversion, so the inner injected values are discarded. -/
def evalFilter : FilterExpr → Update → Flow × List Nat
  | .prim id f, u => (f u, [id])
  | .and f s, u =>
    let (first_flow, t1) := evalFilter f u
    let (second_flow, t2) := evalFilter s u
    let merged := second_flow.injector.extend first_flow.injector
    (if first_flow.is_continue && second_flow.is_continue then
      { second_flow with injector := merged }
    else break_now, t1 ++ t2)
  | .or f o, u =>
    let (first_flow, t1) := evalFilter f u
    if first_flow.is_continue then (first_flow, t1)
    else
      let (other_flow, t2) := evalFilter o u
      (if other_flow.is_continue then other_flow else break_now, t1 ++ t2)
  | .not f, u =>
    let (flow, t) := evalFilter f u
    (Flow.ofBool (!flow.is_continue), t)

/-!
The Command filter.  filters/command.rs builds one regex string per check:
`^(p1|p2|…)(?i)(cmd(@username)?)($|\s)` for a single-token command (and with
the remaining tokens appended inside the group for a multi-token command; the
`(cmd(@username)?)` part is present only when the bot username resolved to
Some).  We model that regex family by a small pattern syntax with the
standard backtracking semantics of the regex crate on it.  The prefixes went
through `regex::escape` at construction (filters/mod.rs `command`), so they
match literally; the claims use command tokens and usernames free of regex
metacharacters, so they match literally as well.  `(?i)` starts
case-insensitive matching after the prefix group.
-/

/-- The regex subset a Command check compiles to. -/
inductive Pat where
  | eps
  | ch (c : Char)
  | chi (c : Char)
  | seq (p q : Pat)
  | alt (p q : Pat)
  | opt (p : Pat)
  | eos
  | wsp

/-- Backtracking matcher (continuation style) for the pattern subset;
`chi` compares case-insensitively (the effect of the `(?i)` flag), `eos` is
`$`, `wsp` is `\s`. -/
def matchPat : Pat → List Char → (List Char → Bool) → Bool
  | .eps, cs, k => k cs
  | .ch _, [], _ => false
  | .ch c, x :: rest, k => x == c && k rest
  | .chi _, [], _ => false
  | .chi c, x :: rest, k => (x.toLower == c.toLower) && k rest
  | .seq p q, cs, k => matchPat p cs (fun rest => matchPat q rest k)
  | .alt p q, cs, k => matchPat p cs k || matchPat q cs k
  | .opt p, cs, k => matchPat p cs k || k cs
  | .eos, cs, k => cs.isEmpty && k cs
  | .wsp, [], _ => false
  | .wsp, x :: rest, k => x.isWhitespace && k rest

def seqList (ps : List Pat) : Pat := ps.foldr .seq .eps

/-- A literal string (the regex-escaped prefixes). -/
def strLit (s : String) : Pat := seqList (s.data.map .ch)

/-- A literal string under `(?i)`. -/
def strLitCI (s : String) : Pat := seqList (s.data.map .chi)

def altList : List Pat → Pat
  | [] => .eps
  | [p] => p
  | p :: ps => .alt p (altList ps)

/-- Rust `str::split_whitespace`: the maximal whitespace-free tokens of the
string, in order (defined over the character list so that it computes by
kernel reduction). -/
def splitWsAux : List Char → List Char → List String
  | [], acc => if acc.isEmpty then [] else [String.mk acc.reverse]
  | c :: cs, acc =>
    if c.isWhitespace then
      if acc.isEmpty then splitWsAux cs [] else String.mk acc.reverse :: splitWsAux cs []
    else splitWsAux cs (c :: acc)

def splitWs (s : String) : List String := splitWsAux s.data []

/-- filters/command.rs `Command` (the lazily resolved bot username is modelled
in its resolved state: None when the account has no username). -/
structure CommandM where
  prefixes : List String
  command : String
  username : Option String
deriving Repr

/-- The pattern `Command::check` builds (command.rs lines 28-48):
`pre_pat = "^({prefixes joined by |})(?i)"`; when the username is known the
inner part is `"{cmd}(@{username})?"`, otherwise it stays empty; a
multi-token command appends `" {remaining tokens}"` inside the group; the
group is followed by `($|\s)`.  The leading `^` anchor is reflected by
matching from the start of the text (see `CommandM.check`). -/
def CommandM.buildPat (c : CommandM) : Pat :=
  let splitted := splitWs c.command
  let inner : Pat :=
    match c.username with
    | some u => .seq (strLitCI (splitted.headD "")) (.opt (.seq (.chi '@') (strLitCI u)))
    | none => .eps
  let preP : Pat := altList (c.prefixes.map strLit)
  let tail := splitted.drop 1
  let innerFull : Pat :=
    if tail.length > 0 then .seq inner (.seq (.chi ' ') (strLitCI (" ".intercalate tail)))
    else inner
  .seq preP (.seq innerFull (.alt .eos .wsp))

/-- filters/command.rs `Command::check`: on a new or edited message the built
regex is matched against the message text (anchored at the start by `^`);
any other update kind gives false; the bool converts into a Flow. -/
def CommandM.check (c : CommandM) (u : Update) : Flow :=
  match u with
  | .NewMessage _ text => Flow.ofBool (matchPat c.buildPat text.data (fun _ => true))
  | .MessageEdited _ text => Flow.ofBool (matchPat c.buildPat text.data (fun _ => true))
  | _ => Flow.ofBool false

/-- filters/mod.rs `DEFAULT_PREFIXES`. -/
def DEFAULT_PREFIXES : List String := ["/", "!"]

/-- filters/mod.rs `command(pat)`: default prefixes (regex-escaped — `/` and
`!` contain no metacharacters, so they are unchanged), the given command
pattern, username not yet resolved.  The username cache starts at None; a
check resolves it first, so checks run with the resolved value (set via
`with username := …` at use sites). -/
def command (pat : String) : CommandM :=
  { prefixes := DEFAULT_PREFIXES, command := pat, username := none }

/-! Endpoint invocation (di.rs impl_handler!), handlers, middleware, router
and dispatcher. -/

/-- The generic parameter letters of the impl_handler! macro, in order; there
are instances for zero up to seventeen parameters (A through Q). -/
def paramLetter (i : Nat) : String :=
  (["A", "B", "C", "D", "E", "F", "G", "H", "I",
    "J", "K", "L", "M", "N", "O", "P", "Q"]).getD i "?"

/-- The error the macro produces for an unresolvable parameter:
`format!("Missing dependency: {:?}", stringify!($params))` — the Debug
rendering puts the macro's generic-parameter letter in quotes. -/
def missingDepMsg (i : Nat) : String :=
  "Missing dependency: \"" ++ paramLetter i ++ "\""

/-- Outcome of an endpoint invocation: Ok, Err (errors are modelled by their
message string, matching the boxed error the crate's Result carries), or a
panic bubbled up from Injector::take. -/
inductive EpOut where
  | ok
  | err (msg : String)
  | panicked
deriving Repr, DecidableEq

/-- An endpoint: user business logic behind di.rs `HandlerFunc`.  Its declared
parameter types are resolved from the injector; `body` is the result the
user function returns once all parameters resolved. -/
structure EndpointM where
  id : Nat
  params : List TypeId
  body : Except String Unit
deriving Repr

/-- The parameter-resolution loop of the impl_handler! macro: each declared
parameter type is taken from the injector in order; a take returning None
produces the missing-dependency error for that parameter's letter. -/
def resolveParams : List TypeId → Nat → Injector → EpOut × Injector
  | [], _, inj => (.ok, inj)
  | p :: ps, i, inj =>
    match inj.take p with
    | (.found _, inj2) => resolveParams ps (i + 1) inj2
    | (.absent, inj2) => (.err (missingDepMsg i), inj2)
    | (.panicked, inj2) => (.panicked, inj2)

/-- di.rs `HandlerFunc::handle`: resolve every declared parameter type from
the injector, then run the function body. -/
def EndpointM.handle (e : EndpointM) (inj : Injector) : EpOut × Injector :=
  match resolveParams e.params 0 inj with
  | (.ok, inj2) =>
    (match e.body with
     | .ok _ => .ok
     | .error m => .err m, inj2)
  | r => r

/-- error_handler.rs `ErrorHandler`, modelled by the Flow its run returns. -/
structure ErrHandlerM where
  id : Nat
  flow : Flow

/-- A middleware, modelled by the Flow its handle returns. -/
structure MiddlewareM where
  id : Nat
  flow : Flow

/-- middleware.rs `MiddlewareStack`. -/
structure MiddlewareStack where
  after : List MiddlewareM := []
  before : List MiddlewareM := []

/-- middleware.rs `MiddlewareStack::extend`:
`self.after.extend(other.after); self.before.extend(other.before)`. -/
def MiddlewareStack.extend (s other : MiddlewareStack) : MiddlewareStack :=
  { after := s.after ++ other.after, before := s.before ++ other.before }

/-- Events observable during a dispatch, in execution order. -/
inductive Event where
  | filterRun (id : Nat)
  | mwRun (id : Nat)
  | endpointRun (id : Nat)
  | errHandlerRun (id : Nat)
deriving Repr, DecidableEq

/-- The loop of `MiddlewareStack::handle_before`: starts from the default
(Continue) flow, runs each before-middleware in list order, stops after the
first one whose flow breaks, and returns the last flow produced. -/
def handleBeforeAux : List MiddlewareM → Flow → Flow × List Event
  | [], fl => (fl, [])
  | m :: ms, _ =>
    if m.flow.is_break then (m.flow, [.mwRun m.id])
    else
      let (fl, evs) := handleBeforeAux ms m.flow
      (fl, .mwRun m.id :: evs)

def MiddlewareStack.handle_before (s : MiddlewareStack) : Flow × List Event :=
  handleBeforeAux s.before {}

/-- The loop of `MiddlewareStack::handle_after`: runs each after-middleware in
list order, stopping after the first one whose flow breaks. -/
def handleAfterAux : List MiddlewareM → List Event
  | [] => []
  | m :: ms =>
    if m.flow.is_break then [.mwRun m.id]
    else .mwRun m.id :: handleAfterAux ms

def MiddlewareStack.handle_after (s : MiddlewareStack) : List Event :=
  handleAfterAux s.after

/-- handler.rs `Handler`. -/
structure HandlerM where
  update_type : UpdateType
  filter : Option FilterExpr := none
  endpoint : Option EndpointM := none
  err_handler : Option ErrHandlerM := none

/-- handler.rs `Handler::check`: break unless the update-type guard matches;
with a matching guard, the filter's flow when one is set, else continue. -/
def HandlerM.check (h : HandlerM) (u : Update) : Flow × List Event :=
  if h.update_type.matches u then
    match h.filter with
    | some f =>
      let (fl, t) := evalFilter f u
      (fl, t.map Event.filterRun)
    | none => (continue_now, [])
  else (break_now, [])

/-- The update-kind-specific value router.rs lines 135-147 insert into the
injector right before invoking the endpoint. -/
def payloadResource : Update → Resource
  | .NewMessage .. => ⟨"Message", 0⟩
  | .MessageEdited .. => ⟨"Message", 0⟩
  | .MessageDeleted => ⟨"MessageDeletion", 0⟩
  | .CallbackQuery .. => ⟨"CallbackQuery", 0⟩
  | .InlineQuery .. => ⟨"InlineQuery", 0⟩
  | .InlineSend .. => ⟨"InlineSend", 0⟩
  | .Raw => ⟨"RawUpdate", 0⟩

/-- router.rs `Router`: handlers, sub-routers, middleware stack. -/
inductive RouterM where
  | mk (handlers : List HandlerM) (routers : List RouterM) (middlewares : MiddlewareStack)

def RouterM.handlers : RouterM → List HandlerM
  | .mk hs _ _ => hs

def RouterM.routers : RouterM → List RouterM
  | .mk _ rs _ => rs

def RouterM.middlewares : RouterM → MiddlewareStack
  | .mk _ _ m => m

/-- `Router::default()`. -/
def RouterM.base : RouterM := .mk [] [] {}

/-- router.rs `Router::handler`: push the handler. -/
def RouterM.handler (r : RouterM) (h : HandlerM) : RouterM :=
  .mk (r.handlers ++ [h]) r.routers r.middlewares

/-- router.rs `Router::router` (lines 57-61): build the nested router from a
default one via the closure, then `self.handlers.extend(router.handlers)` —
only the built router's handlers are kept; its sub-routers and middleware
stack are dropped on the floor. -/
def RouterM.router (r : RouterM) (f : RouterM → RouterM) : RouterM :=
  let built := f RouterM.base
  .mk (r.handlers ++ built.handlers) r.routers r.middlewares

/-- Result of `Router::handle_update`: `Result<bool>` plus panics. -/
inductive ROut where
  | handled (b : Bool)
  | err (msg : String)
  | panicked
deriving Repr, DecidableEq

/-- Outcome of the handler loop inside `Router::handle_update` before the
sub-router recursion is consulted. -/
inductive HLoop where
  | nomatch
  | handled
  | errored (msg : String)
  | panicked
deriving Repr, DecidableEq

/-- The handler loop of router.rs `Router::handle_update` (lines 124-178).
Per handler: run the before-middlewares; when they continue, run the
handler's check and drain the middleware flow's injector into the check
flow's; when the flow continues and an endpoint is set, drain the flow's
injector into the main injector, insert the update payload, and invoke the
endpoint: on Ok run the after-middlewares and report handled; on Err consult
the handler's error handler — absent: propagate the error; present and its
flow continues: drain that flow's injector in and invoke the endpoint once
more, reporting its result (`.map(|_| true)` — no after-middlewares); present
and its flow breaks: report handled, swallowing the error.  A handler whose
middlewares broke, whose flow broke, or which has no endpoint falls through
to the next handler. -/
def runHandlers (mws : MiddlewareStack) (u : Update) :
    List HandlerM → Injector → HLoop × Injector × List Event
  | [], inj => (.nomatch, inj, [])
  | h :: hs, inj =>
    let (mwFlow, ev1) := mws.handle_before
    if mwFlow.is_continue then
      let (fl, ev2) := h.check u
      let flow : Flow := { fl with injector := fl.injector.extend mwFlow.injector }
      if flow.is_continue then
        match h.endpoint with
        | some ep =>
          let inj := inj.extend flow.injector
          let inj := inj.insert (payloadResource u)
          let evs := ev1 ++ ev2 ++ [.endpointRun ep.id]
          match ep.handle inj with
          | (.ok, inj2) => (.handled, inj2, evs ++ mws.handle_after)
          | (.err e, inj2) =>
            match h.err_handler with
            | some eh =>
              let evs := evs ++ [.errHandlerRun eh.id]
              if eh.flow.is_continue then
                let inj3 := inj2.extend eh.flow.injector
                match ep.handle inj3 with
                | (.ok, inj4) => (.handled, inj4, evs ++ [.endpointRun ep.id])
                | (.err e2, inj4) => (.errored e2, inj4, evs ++ [.endpointRun ep.id])
                | (.panicked, inj4) => (.panicked, inj4, evs ++ [.endpointRun ep.id])
              else (.handled, inj2, evs)
            | none => (.errored e, inj2, evs)
          | (.panicked, inj2) => (.panicked, inj2, evs)
        | none =>
          let (o, i, e) := runHandlers mws u hs inj
          (o, i, ev1 ++ ev2 ++ e)
      else
        let (o, i, e) := runHandlers mws u hs inj
        (o, i, ev1 ++ ev2 ++ e)
    else
      let (o, i, e) := runHandlers mws u hs inj
      (o, i, ev1 ++ e)

mutual

/-- router.rs `Router::handle_update` (lines 114-192): extend the inherited
middleware stack with this router's own (inherited stack first), walk the
handlers, and when none matched recurse into the sub-routers in order with
the combined stack; Ok(false) means "not handled here". -/
def RouterM.handle_update : RouterM → Update → Injector → MiddlewareStack →
    ROut × Injector × List Event
  | .mk hs rs own, u, inj, inherited =>
    let m := inherited.extend own
    match runHandlers m u hs inj with
    | (.handled, inj2, evs) => (.handled true, inj2, evs)
    | (.errored e, inj2, evs) => (.err e, inj2, evs)
    | (.panicked, inj2, evs) => (.panicked, inj2, evs)
    | (.nomatch, inj2, evs) =>
      let (o, inj3, evs2) := runRouters rs u inj2 m
      (o, inj3, evs ++ evs2)

/-- The sub-router loop of `Router::handle_update` (lines 180-189): try each
sub-router in order, continuing past Ok(false), returning the first
Ok(true) or error. -/
def runRouters : List RouterM → Update → Injector → MiddlewareStack →
    ROut × Injector × List Event
  | [], _, inj, _ => (.handled false, inj, [])
  | r :: rest, u, inj, m =>
    match r.handle_update u inj m with
    | (.handled false, inj2, evs) =>
      let (o, inj3, evs2) := runRouters rest u inj2 m
      (o, inj3, evs ++ evs2)
    | out => out

end

/-- Result of `Dispatcher::handle_update`: `Result<()>` plus panics. -/
inductive DOut where
  | ok
  | err (msg : String)
  | panicked
deriving Repr, DecidableEq

/-- dispatcher.rs `Dispatcher`.  A plugin is a named wrapper around a router,
so the plugin list is modelled by the routers it contributes. -/
structure DispatcherM where
  routers : List RouterM := []
  plugins : List RouterM := []
  injector : Injector := .empty
  middlewares : MiddlewareStack := {}
  allow_from_self : Bool := false

/-- The router loop of `Dispatcher::handle_update` (lines 238-259, and the
identical plugin loop): run each router in order on the shared injector,
stopping at the first Ok(true) or error; `none` means no router handled it. -/
def runTopRouters : List RouterM → Update → Injector → MiddlewareStack →
    Option DOut × Injector × List Event
  | [], _, inj, _ => (none, inj, [])
  | r :: rest, u, inj, m =>
    match r.handle_update u inj m with
    | (.handled true, inj2, evs) => (some .ok, inj2, evs)
    | (.handled false, inj2, evs) =>
      let (o, inj3, evs2) := runTopRouters rest u inj2 m
      (o, inj3, evs ++ evs2)
    | (.err e, inj2, evs) => (some (.err e), inj2, evs)
    | (.panicked, inj2, evs) => (some .panicked, inj2, evs)

/-- dispatcher.rs `Dispatcher::handle_update` (lines 177-262): build the
per-update injector (context, client, update, then a clone of the global
injector merged in); save observed chats to the cache (an external
side effect, not modelled); drop the update — returning Ok with no dispatch
— when its sender is the client's own account, unless `allow_from_self` is
set … except in the InlineSend arm (lines 227-234), which drops self updates
without consulting `allow_from_self`; then run every router, then every
plugin's router, in order, stopping at the first handled or error. -/
def DispatcherM.handle_update (d : DispatcherM) (u : Update) : DOut × List Event :=
  let inj := Injector.empty
  let inj := inj.insert ⟨"Context", 0⟩
  let inj := inj.insert ⟨"Client", 0⟩
  let inj := inj.insert ⟨"Update", 0⟩
  let inj := inj.extend d.injector
  let dropped : Bool :=
    match u with
    | .NewMessage (some (.user self_flag)) _ => !d.allow_from_self && self_flag
    | .MessageEdited (some (.user self_flag)) _ => !d.allow_from_self && self_flag
    | .CallbackQuery (.user self_flag) => !d.allow_from_self && self_flag
    | .InlineQuery self_flag => !d.allow_from_self && self_flag
    | .InlineSend self_flag => self_flag
    | _ => false
  if dropped then (.ok, [])
  else
    match runTopRouters d.routers u inj d.middlewares with
    | (some o, _, evs) => (o, evs)
    | (none, inj2, evs) =>
      match runTopRouters d.plugins u inj2 d.middlewares with
      | (some o, _, evs2) => (o, evs ++ evs2)
      | (none, _, evs2) => (.ok, evs ++ evs2)

/-- The endpoint invocations recorded in a trace, in order. -/
def endpointRuns (evs : List Event) : List Nat :=
  evs.filterMap (fun e => match e with | .endpointRun i => some i | _ => none)

/-- Whether one string occurs inside another (used to state that an error
message does or does not name a type). -/
def beginsWith : List Char → List Char → Bool
  | _, [] => true
  | [], _ :: _ => false
  | x :: xs, y :: ys => x == y && beginsWith xs ys

def hasSeg : List Char → List Char → Bool
  | [], n => beginsWith [] n
  | x :: xs, n => beginsWith (x :: xs) n || hasSeg xs n

def mentionsText (msg needle : String) : Bool := hasSeg msg.data needle.data

/-! Helper lemmas. -/

theorem Flow.continue_false_of_break (fl : Flow) (h : fl.is_break = true) :
    fl.is_continue = false := by
  cases fl with
  | mk a i =>
    cases a with
    | Break => rfl
    | Continue => simp [Flow.is_break] at h

theorem Injector.extend_empty (inj : Injector) : inj.extend Injector.empty = inj := rfl

theorem Injector.take_empty (tid : TypeId) :
    (Injector.empty.take tid).1 = .absent := rfl

theorem Injector.get_empty (tid : TypeId) :
    Injector.empty.get tid = none := rfl

theorem HandlerM.check_ignores_rest (ut : UpdateType) (fo : Option FilterExpr)
    (e1 e2 : Option EndpointM) (x y : Option ErrHandlerM) (u : Update) :
    HandlerM.check ⟨ut, fo, e1, x⟩ u = HandlerM.check ⟨ut, fo, e2, y⟩ u := rfl

theorem endpointRuns_append (a b : List Event) :
    endpointRuns (a ++ b) = endpointRuns a ++ endpointRuns b := by
  simp [endpointRuns]

theorem endpointRuns_filterRuns (t : List Nat) :
    endpointRuns (t.map Event.filterRun) = [] := by
  simp [endpointRuns]

theorem endpointRuns_check (h : HandlerM) (u : Update) :
    endpointRuns (h.check u).2 = [] := by
  unfold HandlerM.check
  split
  · cases hf : h.filter with
    | none => rfl
    | some f => exact endpointRuns_filterRuns (evalFilter f u).2
  · rfl

theorem Flow.is_continue_with_injector (fl : Flow) (x : Injector) :
    ({ fl with injector := x }).is_continue = fl.is_continue := rfl

theorem Flow.is_continue_mk_continue (x : Injector) :
    (Flow.mk .Continue x).is_continue = true := rfl

theorem Flow.is_break_mk_continue (x : Injector) :
    (Flow.mk .Continue x).is_break = false := rfl

/-- Evaluation of the handler loop on one matching handler whose endpoint
errs, with no middlewares: the loop reaches the error branch of
router.rs lines 157-173. -/
theorem runHandlers_single_err (h : HandlerM) (ep : EndpointM) (u : Update)
    (inj inj2 : Injector) (msg : String)
    (hcont : ((h.check u).1).is_continue = true)
    (hep : h.endpoint = some ep)
    (hhandle : ep.handle ((inj.extend ((h.check u).1).injector).insert (payloadResource u))
      = (.err msg, inj2)) :
    runHandlers {} u [h] inj =
      match h.err_handler with
      | some eh =>
        if eh.flow.is_continue then
          match ep.handle (inj2.extend eh.flow.injector) with
          | (.ok, inj4) => (.handled, inj4,
              (h.check u).2 ++ [.endpointRun ep.id, .errHandlerRun eh.id, .endpointRun ep.id])
          | (.err e2, inj4) => (.errored e2, inj4,
              (h.check u).2 ++ [.endpointRun ep.id, .errHandlerRun eh.id, .endpointRun ep.id])
          | (.panicked, inj4) => (.panicked, inj4,
              (h.check u).2 ++ [.endpointRun ep.id, .errHandlerRun eh.id, .endpointRun ep.id])
        else (.handled, inj2, (h.check u).2 ++ [.endpointRun ep.id, .errHandlerRun eh.id])
      | none => (.errored msg, inj2, (h.check u).2 ++ [.endpointRun ep.id]) := by
  cases hch : h.check u with
  | mk fl ev2 =>
    rw [hch] at hcont hhandle
    simp only at hcont hhandle
    simp only [runHandlers, MiddlewareStack.handle_before, handleBeforeAux, hch, hep,
      Injector.extend_empty, Flow.is_continue_with_injector]
    norm_num [hcont, hhandle]
    intro hcontra
    simp [Flow.is_continue] at hcontra

theorem MiddlewareStack.extend_empty_empty :
    ({} : MiddlewareStack).extend {} = {} := rfl

/-- `Router::handle_update` on a leaf router with a single handler and no
middlewares is the handler loop, with Ok(false) for no match. -/
theorem handle_update_single (h : HandlerM) (u : Update) (inj : Injector) :
    RouterM.handle_update (.mk [h] [] {}) u inj {} =
      match runHandlers {} u [h] inj with
      | (.handled, inj2, evs) => (.handled true, inj2, evs)
      | (.errored e, inj2, evs) => (.err e, inj2, evs)
      | (.panicked, inj2, evs) => (.panicked, inj2, evs)
      | (.nomatch, inj2, evs) => (.handled false, inj2, evs) := by
  simp only [RouterM.handle_update, MiddlewareStack.extend_empty_empty]
  cases hr : runHandlers {} u [h] inj with
  | mk o rest =>
    cases rest with
    | mk i2 evs => cases o <;> simp [runRouters]

/-! Claim theorems. -/

/-- C4.  The Injector is FIFO per type, but the claim's third `take` does not
return an error-free None: `take` hits the Occupied entry left behind by the
second take (whose queue is now empty) and panics on `pop_front().unwrap()`.
This theorem evaluates the code at the failing input: after inserting values
1 and 2 of type T, the first take yields 1, the second yields 2, and the
third panics. -/
theorem injector_fifo_third_take_panics :
    ((((Injector.empty.insert ⟨"T", 1⟩).insert ⟨"T", 2⟩).take "T")).1 = .found ⟨"T", 1⟩
    ∧ (((((Injector.empty.insert ⟨"T", 1⟩).insert ⟨"T", 2⟩).take "T")).2.take "T").1
        = .found ⟨"T", 2⟩
    ∧ ((((((Injector.empty.insert ⟨"T", 1⟩).insert ⟨"T", 2⟩).take "T")).2.take "T").2.take "T").1
        = .panicked := by
  decide

/-- C8.  The filter `command("start")` with the default prefixes `/` and `!`
(and the bot username resolved to `botname`) matches the message texts
`/start`, `!start` and `/start@botname`, and does not match `/starting`:
the built regex requires end-of-string or whitespace after the command
token. -/
theorem command_start_default_prefixes :
    (CommandM.check { command "start" with username := some "botname" }
      (.NewMessage none "/start")).is_continue = true
    ∧ (CommandM.check { command "start" with username := some "botname" }
      (.NewMessage none "!start")).is_continue = true
    ∧ (CommandM.check { command "start" with username := some "botname" }
      (.NewMessage none "/start@botname")).is_continue = true
    ∧ (CommandM.check { command "start" with username := some "botname" }
      (.NewMessage none "/starting")).is_continue = false := by
  decide

/-- C10.  `Router::router` flattens a closure-built nested router into the
parent: exactly the built router's handlers are appended, in order, at the
end of the parent's handler list, while the built router's sub-routers and
middleware stack are discarded and the parent's pre-existing handlers,
sub-routers and middleware stack are untouched. -/
theorem router_nested_flattening (r : RouterM) (f : RouterM → RouterM) :
    (r.router f).handlers = r.handlers ++ (f RouterM.base).handlers
    ∧ (r.router f).routers = r.routers
    ∧ (r.router f).middlewares = r.middlewares := by
  cases r with
  | mk hs rs m => exact ⟨rfl, rfl, rfl⟩

/-- C5.  When the first filter of an And breaks, the composite check returns
a fresh Break flow: even though the second filter was evaluated and its
injected marker was merged into its own flow, the returned flow is
`flow::break_now()`, whose injector is empty, so the marker is not
observable through it (every take is empty-handed and every get is None). -/
theorem and_break_hides_injection (f g : FilterExpr) (u : Update)
    (hbrk : ((evalFilter f u).1).is_break = true) :
    (evalFilter (.and f g) u).1 = break_now
    ∧ (∀ tid, (((evalFilter (.and f g) u).1).injector.take tid).1 = .absent)
    ∧ (∀ tid, ((evalFilter (.and f g) u).1).injector.get tid = none) := by
  have hc := Flow.continue_false_of_break _ hbrk
  have hmain : (evalFilter (.and f g) u).1 = break_now := by
    cases hf : evalFilter f u with
    | mk ff t1 =>
      cases hg : evalFilter g u with
      | mk gf t2 =>
        rw [hf] at hc
        simp only at hc
        simp [evalFilter, hf, hg, hc]
  exact ⟨hmain, fun tid => by rw [hmain]; rfl, fun tid => by rw [hmain]; rfl⟩

/-- C5 witness: a concrete breaking filter and a concrete marker-injecting
filter. -/
theorem and_break_hides_injection_witness :
    ((evalFilter (.prim 2 (fun _ => break_now)) .Raw).1).is_break = true
    ∧ (evalFilter (.and (.prim 2 (fun _ => break_now))
        (.prim 1 (fun _ => continue_with ⟨"Marker", 9⟩))) .Raw).1 = break_now
    ∧ (∀ tid, (((evalFilter (.and (.prim 2 (fun _ => break_now))
        (.prim 1 (fun _ => continue_with ⟨"Marker", 9⟩))) .Raw).1).injector.take tid).1
          = .absent)
    ∧ (∀ tid, ((evalFilter (.and (.prim 2 (fun _ => break_now))
        (.prim 1 (fun _ => continue_with ⟨"Marker", 9⟩))) .Raw).1).injector.get tid = none) := by
  refine ⟨by decide, ?_⟩
  exact and_break_hides_injection (.prim 2 (fun _ => break_now))
    (.prim 1 (fun _ => continue_with ⟨"Marker", 9⟩)) .Raw (by decide)

/-- C6.  When the first filter of an Or continues, the composite check
returns the first filter's flow — value, injected resources and evaluation
trace are exactly those of the first filter, so the second filter was not
evaluated and nothing it would inject is present. -/
theorem or_short_circuit (f g : FilterExpr) (u : Update)
    (hc : ((evalFilter f u).1).is_continue = true) :
    evalFilter (.or f g) u = evalFilter f u := by
  cases hf : evalFilter f u with
  | mk ff t1 =>
    rw [hf] at hc
    simp only at hc
    simp [evalFilter, hf, hc]

/-- C6 witness: a concrete continuing-and-injecting filter against a concrete
would-inject filter; evaluating the Or gives exactly the first filter's flow
and trace. -/
theorem or_short_circuit_witness :
    ((evalFilter (.prim 0 (fun _ => continue_with ⟨"i32", 5⟩)) .Raw).1).is_continue = true
    ∧ evalFilter (.or (.prim 0 (fun _ => continue_with ⟨"i32", 5⟩))
        (.prim 1 (fun _ => continue_with ⟨"Marker", 9⟩))) .Raw
      = evalFilter (.prim 0 (fun _ => continue_with ⟨"i32", 5⟩)) .Raw :=
  ⟨by decide, or_short_circuit (.prim 0 (fun _ => continue_with ⟨"i32", 5⟩))
    (.prim 1 (fun _ => continue_with ⟨"Marker", 9⟩)) .Raw (by decide)⟩

/-- C2.  The InlineSend arm of `Dispatcher::handle_update` drops updates from
the client's own account without consulting `allow_from_self` (unlike every
other sender-carrying arm, and contrary to `allow_from_self`'s documented
effect): with `allow_from_self` set and a registered InlineSend handler, a
self InlineSend update is still dropped — handle_update reports success with
an empty trace, zero handler invocations — while the same dispatcher runs
the handler for a non-self InlineSend update. -/
theorem dispatcher_inline_send_self_bug :
    DispatcherM.handle_update
      { routers := [.mk [⟨.InlineSend, none, some ⟨7, [], Except.ok ()⟩, none⟩] [] {}],
        allow_from_self := true } (.InlineSend true) = (.ok, [])
    ∧ DispatcherM.handle_update
      { routers := [.mk [⟨.InlineSend, none, some ⟨7, [], Except.ok ()⟩, none⟩] [] {}],
        allow_from_self := true } (.InlineSend false) = (.ok, [.endpointRun 7]) := by
  decide

/-- C1 (amended).  When a matched handler's endpoint errs
(router.rs lines 157-173): with no local error handler the error propagates
out of `Router::handle_update` as Err; but when a local error handler is set
and its run returns a Break flow, the router swallows the error and returns
Ok(true) — it reports the update as handled instead of returning the
error. -/
theorem router_error_handler_break_behavior
    (ut : UpdateType) (fo : Option FilterExpr) (ep : EndpointM) (eh : ErrHandlerM)
    (u : Update) (inj : Injector) (msg : String)
    (hmatch : ((HandlerM.check ⟨ut, fo, some ep, none⟩ u).1).is_continue = true)
    (herr : (ep.handle ((inj.extend
        ((HandlerM.check ⟨ut, fo, some ep, none⟩ u).1).injector).insert
        (payloadResource u))).1 = .err msg)
    (hbrk : eh.flow.is_break = true) :
    (RouterM.handle_update (.mk [⟨ut, fo, some ep, none⟩] [] {}) u inj {}).1 = .err msg
    ∧ (RouterM.handle_update (.mk [⟨ut, fo, some ep, some eh⟩] [] {}) u inj {}).1
        = .handled true := by
  have hbc := Flow.continue_false_of_break _ hbrk
  cases hh : ep.handle ((inj.extend
      ((HandlerM.check ⟨ut, fo, some ep, none⟩ u).1).injector).insert (payloadResource u)) with
  | mk o i2 =>
    rw [hh] at herr
    simp only at herr
    subst herr
    constructor
    · have h1 := runHandlers_single_err ⟨ut, fo, some ep, none⟩ ep u inj i2 msg hmatch rfl hh
      rw [handle_update_single, h1]
    · have h2 := runHandlers_single_err ⟨ut, fo, some ep, some eh⟩ ep u inj i2 msg hmatch rfl hh
      rw [handle_update_single, h2]
      simp [hbc]

/-- C1 counterexample to the claim as stated: a handler whose endpoint errs
with "boom" and whose local error handler breaks makes
`Router::handle_update` return Ok(true) — the error does not propagate. -/
theorem router_error_handler_break_cex :
    (RouterM.handle_update
      (.mk [⟨.Raw, none, some ⟨0, [], Except.error "boom"⟩, some ⟨5, break_now⟩⟩] [] {})
      .Raw Injector.empty {}).1 = .handled true
    ∧ (RouterM.handle_update
      (.mk [⟨.Raw, none, some ⟨0, [], Except.error "boom"⟩, some ⟨5, break_now⟩⟩] [] {})
      .Raw Injector.empty {}).1 ≠ .err "boom" := by
  decide

/-- C1 witness: concrete instantiation of the amended theorem. -/
theorem router_error_handler_break_behavior_witness :
    ((HandlerM.check ⟨.Raw, none, some ⟨0, [], Except.error "boom"⟩, none⟩ .Raw).1).is_continue
        = true
    ∧ ((⟨0, [], Except.error "boom"⟩ : EndpointM).handle ((Injector.empty.extend
        ((HandlerM.check ⟨.Raw, none, some ⟨0, [], Except.error "boom"⟩, none⟩ .Raw).1).injector).insert
        (payloadResource .Raw))).1 = .err "boom"
    ∧ ((⟨5, break_now⟩ : ErrHandlerM)).flow.is_break = true
    ∧ (RouterM.handle_update (.mk [⟨.Raw, none, some ⟨0, [], Except.error "boom"⟩, none⟩] [] {})
        .Raw Injector.empty {}).1 = .err "boom"
    ∧ (RouterM.handle_update
        (.mk [⟨.Raw, none, some ⟨0, [], Except.error "boom"⟩, some ⟨5, break_now⟩⟩] [] {})
        .Raw Injector.empty {}).1 = .handled true := by
  refine ⟨by decide, by decide, by decide, ?_, ?_⟩
  · exact (router_error_handler_break_behavior .Raw none ⟨0, [], Except.error "boom"⟩
      ⟨5, break_now⟩ .Raw Injector.empty "boom" (by decide) (by decide) (by decide)).1
  · exact (router_error_handler_break_behavior .Raw none ⟨0, [], Except.error "boom"⟩
      ⟨5, break_now⟩ .Raw Injector.empty "boom" (by decide) (by decide) (by decide)).2

theorem handleBeforeAux_all_continue (ms : List MiddlewareM) (fl : Flow)
    (hc : ∀ m ∈ ms, m.flow.is_continue = true) (hfl : fl.is_continue = true) :
    (handleBeforeAux ms fl).2 = ms.map (fun m => Event.mwRun m.id)
    ∧ ((handleBeforeAux ms fl).1).is_continue = true := by
  induction ms generalizing fl with
  | nil => exact ⟨rfl, hfl⟩
  | cons m ms ih =>
    have hm := hc m (List.mem_cons_self m ms)
    have hbr : m.flow.is_break = false := by
      cases hmf : m.flow with
      | mk a i =>
        cases a with
        | Break => rw [hmf] at hm; simp [Flow.is_continue] at hm
        | Continue => rfl
    have hrest := ih m.flow (fun x hx => hc x (List.mem_cons_of_mem m hx)) hm
    cases hrec : handleBeforeAux ms m.flow with
    | mk f2 e2 =>
      rw [hrec] at hrest
      simp only at hrest
      simp [handleBeforeAux, hbr, hrec, hrest.1, hrest.2]

theorem handleAfterAux_all_continue (ms : List MiddlewareM)
    (hc : ∀ m ∈ ms, m.flow.is_continue = true) :
    handleAfterAux ms = ms.map (fun m => Event.mwRun m.id) := by
  induction ms with
  | nil => rfl
  | cons m ms ih =>
    have hm := hc m (List.mem_cons_self m ms)
    have hbr : m.flow.is_break = false := by
      cases hmf : m.flow with
      | mk a i =>
        cases a with
        | Break => rw [hmf] at hm; simp [Flow.is_continue] at hm
        | Continue => rfl
    simp [handleAfterAux, hbr, ih (fun x hx => hc x (List.mem_cons_of_mem m hx))]

/-- C9 (amended).  When a router's own middleware stack is combined with the
inherited (parent) one, `MiddlewareStack::extend` concatenates
inherited-then-own for BOTH hook lists, and both `handle_before` and
`handle_after` run their list front to back — so the parent's before-hooks
run first (before the child's) and the parent's after-hooks ALSO run first
(before the child's), not last.  Witnessed end to end: dispatching through a
single always-matching handler records parent-before, child-before,
endpoint, parent-after, child-after, in that order. -/
theorem middleware_parent_first_order
    (p c : MiddlewareStack) (epid : Nat) (ut : UpdateType) (u : Update) (inj : Injector)
    (hmatch : ut.matches u = true)
    (hb : ∀ m ∈ p.before ++ c.before, m.flow.is_continue = true)
    (ha : ∀ m ∈ p.after ++ c.after, m.flow.is_continue = true) :
    (RouterM.handle_update (.mk [⟨ut, none, some ⟨epid, [], Except.ok ()⟩, none⟩] [] c)
        u inj p).2.2
      = (p.before ++ c.before).map (fun m => Event.mwRun m.id)
        ++ [Event.endpointRun epid]
        ++ (p.after ++ c.after).map (fun m => Event.mwRun m.id) := by
  have hbefore := handleBeforeAux_all_continue (p.before ++ c.before) {} hb rfl
  cases hrec : handleBeforeAux (p.before ++ c.before) {} with
  | mk mwFl ev1 =>
    rw [hrec] at hbefore
    simp only at hbefore
    have hfl : mwFl.action = Action.Continue := by
      have h2 := hbefore.2
      simp [Flow.is_continue] at h2
      exact h2
    simp [RouterM.handle_update, MiddlewareStack.extend, runHandlers,
      MiddlewareStack.handle_before, hrec, hbefore.1, hbefore.2, HandlerM.check, hmatch,
      Flow.is_continue_with_injector, continue_now, Flow.is_continue,
      EndpointM.handle, resolveParams, MiddlewareStack.handle_after,
      handleAfterAux_all_continue (p.after ++ c.after) ha, hfl]

/-- C9 counterexample to the claim as stated: with a parent after-hook (id 1)
and a child after-hook (id 2), the recorded order is parent first — the
trace ends `[mwRun 1, mwRun 2]`, not `[mwRun 2, mwRun 1]` as "parent
after-hooks run last" would require. -/
theorem middleware_after_order_cex :
    (RouterM.handle_update
        (.mk [⟨.Raw, none, some ⟨0, [], Except.ok ()⟩, none⟩] []
          { after := [⟨2, continue_now⟩], before := [⟨4, continue_now⟩] })
        .Raw Injector.empty
        { after := [⟨1, continue_now⟩], before := [⟨3, continue_now⟩] }).2.2
      = [.mwRun 3, .mwRun 4, .endpointRun 0, .mwRun 1, .mwRun 2]
    ∧ (RouterM.handle_update
        (.mk [⟨.Raw, none, some ⟨0, [], Except.ok ()⟩, none⟩] []
          { after := [⟨2, continue_now⟩], before := [⟨4, continue_now⟩] })
        .Raw Injector.empty
        { after := [⟨1, continue_now⟩], before := [⟨3, continue_now⟩] }).2.2
      ≠ [.mwRun 3, .mwRun 4, .endpointRun 0, .mwRun 2, .mwRun 1] := by
  decide

/-- C9 witness: concrete instantiation of the amended ordering theorem. -/
theorem middleware_parent_first_order_witness :
    UpdateType.matches .Raw .Raw = true
    ∧ (∀ m ∈ ([⟨3, continue_now⟩] ++ [⟨4, continue_now⟩] : List MiddlewareM),
        m.flow.is_continue = true)
    ∧ (∀ m ∈ ([⟨1, continue_now⟩] ++ [⟨2, continue_now⟩] : List MiddlewareM),
        m.flow.is_continue = true)
    ∧ (RouterM.handle_update
        (.mk [⟨.Raw, none, some ⟨0, [], Except.ok ()⟩, none⟩] []
          { after := [⟨2, continue_now⟩], before := [⟨4, continue_now⟩] })
        .Raw Injector.empty
        { after := [⟨1, continue_now⟩], before := [⟨3, continue_now⟩] }).2.2
      = (([⟨3, continue_now⟩] ++ [⟨4, continue_now⟩] : List MiddlewareM)).map
          (fun m => Event.mwRun m.id)
        ++ [Event.endpointRun 0]
        ++ (([⟨1, continue_now⟩] ++ [⟨2, continue_now⟩] : List MiddlewareM)).map
          (fun m => Event.mwRun m.id) := by
  refine ⟨by decide, by decide, by decide, ?_⟩
  exact middleware_parent_first_order
    { after := [⟨1, continue_now⟩], before := [⟨3, continue_now⟩] }
    { after := [⟨2, continue_now⟩], before := [⟨4, continue_now⟩] }
    0 .Raw .Raw Injector.empty (by decide) (by decide) (by decide)

/-- Evaluation of the handler loop on a matching handler whose endpoint
succeeds, with no middlewares: the loop stops and reports handled (router.rs
lines 149-156), recording exactly one endpoint invocation. -/
theorem runHandlers_cons_ok (h : HandlerM) (hs : List HandlerM) (ep : EndpointM)
    (u : Update) (inj : Injector)
    (hcont : ((h.check u).1).is_continue = true)
    (hep : h.endpoint = some ep)
    (hok : (ep.handle ((inj.extend ((h.check u).1).injector).insert (payloadResource u))).1
      = .ok) :
    (runHandlers {} u (h :: hs) inj).1 = .handled
    ∧ endpointRuns ((runHandlers {} u (h :: hs) inj).2.2) = [ep.id] := by
  cases hh : ep.handle ((inj.extend ((h.check u).1).injector).insert (payloadResource u)) with
  | mk o i2 =>
    rw [hh] at hok
    simp only at hok
    subst hok
    cases hch : h.check u with
    | mk fl ev2 =>
      rw [hch] at hcont hh
      simp only at hcont hh
      have hruns := endpointRuns_check h u
      rw [hch] at hruns
      simp only at hruns
      simp [runHandlers, MiddlewareStack.handle_before, handleBeforeAux, hch, hep,
        Injector.extend_empty, Flow.is_continue_with_injector, Flow.is_continue_mk_continue,
        hcont, hh, MiddlewareStack.handle_after, handleAfterAux, endpointRuns_append, hruns,
        endpointRuns]
      rw [endpointRuns, List.filterMap_eq_nil_iff] at hruns
      exact hruns

/-- Evaluation of the handler loop past a non-matching (or endpoint-less)
handler, with no middlewares: the loop falls through to the remaining
handlers, leaving the injector unchanged and recording only the handler's
filter evaluations. -/
theorem runHandlers_cons_skip (h1 : HandlerM) (hs : List HandlerM) (u : Update)
    (inj : Injector)
    (hskip : ((h1.check u).1).is_continue = false ∨ h1.endpoint = none) :
    runHandlers {} u (h1 :: hs) inj
      = ((runHandlers {} u hs inj).1, (runHandlers {} u hs inj).2.1,
         (h1.check u).2 ++ (runHandlers {} u hs inj).2.2) := by
  cases hch : h1.check u with
  | mk fl ev2 =>
    cases hrest : runHandlers {} u hs inj with
    | mk o rest =>
      cases rest with
      | mk i2 evs =>
        rcases hskip with hbr | hnone
        · rw [hch] at hbr
          simp only at hbr
          simp [runHandlers, MiddlewareStack.handle_before, handleBeforeAux, hch,
            Injector.extend_empty, Flow.is_continue_with_injector,
            Flow.is_continue_mk_continue, hbr, hrest]
        · simp only [runHandlers, MiddlewareStack.handle_before, handleBeforeAux, hch, hnone,
            Injector.extend_empty, Flow.is_continue_with_injector,
            Flow.is_continue_mk_continue, if_true]
          split <;> simp [hrest]

/-- C7.  Router dispatch is first-match-wins in registration order: with no
middlewares, if every handler before `h` either fails its check or has no
endpoint, `h`'s check continues, and `h`'s endpoint succeeds, then
`Router::handle_update` reports the update handled and the trace records
exactly one endpoint invocation — `h`'s — regardless of the handlers and
sub-routers after it. -/
theorem router_first_match_wins
    (hs1 hs2 : List HandlerM) (h : HandlerM) (rs : List RouterM)
    (u : Update) (inj : Injector) (ep : EndpointM)
    (hprev : ∀ h1 ∈ hs1, ((h1.check u).1).is_continue = false ∨ h1.endpoint = none)
    (hcont : ((h.check u).1).is_continue = true)
    (hep : h.endpoint = some ep)
    (hok : (ep.handle ((inj.extend ((h.check u).1).injector).insert (payloadResource u))).1
      = .ok) :
    (RouterM.handle_update (.mk (hs1 ++ h :: hs2) rs {}) u inj {}).1 = .handled true
    ∧ endpointRuns ((RouterM.handle_update (.mk (hs1 ++ h :: hs2) rs {}) u inj {}).2.2)
        = [ep.id] := by
  have hloop : (runHandlers {} u (hs1 ++ h :: hs2) inj).1 = .handled
      ∧ endpointRuns ((runHandlers {} u (hs1 ++ h :: hs2) inj).2.2) = [ep.id] := by
    induction hs1 with
    | nil => exact runHandlers_cons_ok h hs2 ep u inj hcont hep hok
    | cons h1 rest ih =>
      have hmain := ih (fun x hx => hprev x (List.mem_cons_of_mem h1 hx))
      rw [List.cons_append, runHandlers_cons_skip h1 (rest ++ h :: hs2) u inj
        (hprev h1 (List.mem_cons_self h1 rest))]
      have hruns := endpointRuns_check h1 u
      simp [endpointRuns_append, hruns, hmain.1, hmain.2]
  cases hr : runHandlers {} u (hs1 ++ h :: hs2) inj with
  | mk o rest =>
    cases rest with
    | mk i2 evs =>
      rw [hr] at hloop
      simp only at hloop
      obtain ⟨ho, hev⟩ := hloop
      subst ho
      simp [RouterM.handle_update, MiddlewareStack.extend, hr, hev]

/-- C7 witness: handlers H1 (never matches), H2 (always matches, endpoint 2),
H3 (always matches, endpoint 3): dispatch reports handled and the trace
has exactly one endpoint invocation, H2's. -/
theorem router_first_match_wins_witness :
    (∀ h1 ∈ ([⟨.Raw, some (.prim 1 (fun _ => break_now)), some ⟨1, [], Except.ok ()⟩, none⟩]
        : List HandlerM),
      ((h1.check .Raw).1).is_continue = false ∨ h1.endpoint = none)
    ∧ (((⟨.Raw, none, some ⟨2, [], Except.ok ()⟩, none⟩ : HandlerM).check .Raw).1).is_continue
        = true
    ∧ (RouterM.handle_update
        (.mk ([⟨.Raw, some (.prim 1 (fun _ => break_now)), some ⟨1, [], Except.ok ()⟩, none⟩]
          ++ ⟨.Raw, none, some ⟨2, [], Except.ok ()⟩, none⟩
            :: [⟨.Raw, none, some ⟨3, [], Except.ok ()⟩, none⟩]) [] {})
        .Raw Injector.empty {}).1 = .handled true
    ∧ endpointRuns ((RouterM.handle_update
        (.mk ([⟨.Raw, some (.prim 1 (fun _ => break_now)), some ⟨1, [], Except.ok ()⟩, none⟩]
          ++ ⟨.Raw, none, some ⟨2, [], Except.ok ()⟩, none⟩
            :: [⟨.Raw, none, some ⟨3, [], Except.ok ()⟩, none⟩]) [] {})
        .Raw Injector.empty {}).2.2) = [2] := by
  refine ⟨?_, by decide, ?_, ?_⟩
  · intro h1 hm
    simp only [List.mem_singleton] at hm
    subst hm
    left
    decide
  · exact (router_first_match_wins
      [⟨.Raw, some (.prim 1 (fun _ => break_now)), some ⟨1, [], Except.ok ()⟩, none⟩]
      [⟨.Raw, none, some ⟨3, [], Except.ok ()⟩, none⟩]
      ⟨.Raw, none, some ⟨2, [], Except.ok ()⟩, none⟩ [] .Raw Injector.empty
      ⟨2, [], Except.ok ()⟩
      (fun h1 hm => by
        simp only [List.mem_singleton] at hm
        subst hm
        exact Or.inl (by decide))
      (by decide) rfl (by decide)).1
  · exact (router_first_match_wins
      [⟨.Raw, some (.prim 1 (fun _ => break_now)), some ⟨1, [], Except.ok ()⟩, none⟩]
      [⟨.Raw, none, some ⟨3, [], Except.ok ()⟩, none⟩]
      ⟨.Raw, none, some ⟨2, [], Except.ok ()⟩, none⟩ [] .Raw Injector.empty
      ⟨2, [], Except.ok ()⟩
      (fun h1 hm => by
        simp only [List.mem_singleton] at hm
        subst hm
        exact Or.inl (by decide))
      (by decide) rfl (by decide)).2

/-- Parameter resolution fails at position `i`: every earlier declared
parameter type takes a value successfully, and the type at position `i` has
no entry in the injector at its turn. -/
inductive FailsMissingAt : Injector → List TypeId → Nat → Prop where
  | here (inj : Injector) (p : TypeId) (ps : List TypeId) :
      inj.lookupQ p = none → FailsMissingAt inj (p :: ps) 0
  | there (inj inj2 : Injector) (p : TypeId) (ps : List TypeId) (i : Nat) (r : Resource) :
      inj.take p = (.found r, inj2) → FailsMissingAt inj2 ps i →
      FailsMissingAt inj (p :: ps) (i + 1)

theorem resolveParams_missing (inj : Injector) (ps : List TypeId) (i : Nat)
    (hf : FailsMissingAt inj ps i) :
    ∀ k, (resolveParams ps k inj).1 = .err (missingDepMsg (k + i)) := by
  induction hf with
  | here inj p ps hlk =>
    intro k
    simp [resolveParams, Injector.take, hlk]
  | there inj inj2 p ps i r htk hrec ih =>
    intro k
    have hstep := ih (k + 1)
    simp only [resolveParams, htk]
    rw [hstep]
    have : k + 1 + i = k + (i + 1) := by omega
    rw [this]

/-- C3 (amended).  When an endpoint is invoked and one of its declared
parameter types has no entry in the Injector at its turn (every earlier
parameter resolving), the invocation fails with the missing-dependency error
naming the POSITION of that parameter — the impl_handler! macro stringifies
its generic-parameter letter ("A", "B", …), not the concrete missing type —
and with no local error handler this error is surfaced as the handler's
error out of `Router::handle_update`. -/
theorem missing_dependency_position_surfaced
    (ut : UpdateType) (ep : EndpointM) (u : Update) (inj : Injector) (i : Nat)
    (hmatch : ut.matches u = true)
    (harity : ep.params.length ≤ 17)
    (hf : FailsMissingAt (inj.insert (payloadResource u)) ep.params i) :
    (ep.handle (inj.insert (payloadResource u))).1 = .err (missingDepMsg i)
    ∧ (RouterM.handle_update (.mk [⟨ut, none, some ep, none⟩] [] {}) u inj {}).1
        = .err (missingDepMsg i) := by
  have hres := resolveParams_missing (inj.insert (payloadResource u)) ep.params i hf 0
  rw [Nat.zero_add] at hres
  have hhandle : ep.handle (inj.insert (payloadResource u))
      = (.err (missingDepMsg i), (resolveParams ep.params 0 (inj.insert (payloadResource u))).2) := by
    cases hr : resolveParams ep.params 0 (inj.insert (payloadResource u)) with
    | mk o j2 =>
      rw [hr] at hres
      simp only at hres
      subst hres
      simp [EndpointM.handle, hr]
  constructor
  · rw [hhandle]
  · have hcont : ((HandlerM.check ⟨ut, none, some ep, none⟩ u).1).is_continue = true := by
      simp [HandlerM.check, hmatch, continue_now, Flow.is_continue]
    have hchk : HandlerM.check ⟨ut, none, some ep, none⟩ u = (continue_now, []) := by
      simp [HandlerM.check, hmatch]
    have harg : ((inj.extend
        ((HandlerM.check ⟨ut, none, some ep, none⟩ u).1).injector).insert (payloadResource u))
        = inj.insert (payloadResource u) := by
      rw [hchk]
      rfl
    have h1 := runHandlers_single_err ⟨ut, none, some ep, none⟩ ep u inj
      (resolveParams ep.params 0 (inj.insert (payloadResource u))).2 (missingDepMsg i)
      hcont rfl (by rw [harg, hhandle])
    rw [handle_update_single, h1]

/-- C3 counterexample to the claim as stated: an endpoint whose single
declared parameter type is `Foo`, invoked on an empty injector, fails with
the error message `Missing dependency: "A"` — the macro parameter letter —
which does not mention the missing type `Foo` at all. -/
theorem missing_dependency_identifies_type_cex :
    ((⟨9, ["Foo"], Except.ok ()⟩ : EndpointM).handle Injector.empty).1
      = .err "Missing dependency: \"A\""
    ∧ mentionsText "Missing dependency: \"A\"" "Foo" = false := by
  decide

/-- C3 witness: an endpoint requiring `Foo` dispatched through a router with
an empty injector — the missing-dependency error for position A surfaces as
the router's error. -/
theorem missing_dependency_position_surfaced_witness :
    UpdateType.matches .Raw .Raw = true
    ∧ ([("Foo" : TypeId)]).length ≤ 17
    ∧ FailsMissingAt (Injector.empty.insert (payloadResource .Raw)) ["Foo"] 0
    ∧ ((⟨9, ["Foo"], Except.ok ()⟩ : EndpointM).handle
        (Injector.empty.insert (payloadResource .Raw))).1 = .err (missingDepMsg 0)
    ∧ (RouterM.handle_update (.mk [⟨.Raw, none, some ⟨9, ["Foo"], Except.ok ()⟩, none⟩] [] {})
        .Raw Injector.empty {}).1 = .err (missingDepMsg 0) := by
  refine ⟨by decide, by decide, FailsMissingAt.here _ _ _ (by decide), ?_, ?_⟩
  · exact (missing_dependency_position_surfaced .Raw ⟨9, ["Foo"], Except.ok ()⟩ .Raw
      Injector.empty 0 (by decide) (by decide)
      (FailsMissingAt.here _ _ _ (by decide))).1
  · exact (missing_dependency_position_surfaced .Raw ⟨9, ["Foo"], Except.ok ()⟩ .Raw
      Injector.empty 0 (by decide) (by decide)
      (FailsMissingAt.here _ _ _ (by decide))).2

end Ferogram
